import Mathlib

/-!
# The pre-filter pipeline of api-filter-proxy

A shallow embedding of `manager/filter.go`, `manager/filter_manager.go`,
`service/routes.go` and `service/route_handlers.go`.

* Go maps that are only measured with `len` (request headers, JSON bodies) are
  association lists; a nil map and an empty map are both the empty list.
* The two process-wide tables `PathPreFilters` and `PathDestinations` are
  finite maps presented by their lookup function (`none` = key absent).
* The HTTP round trip inside `processFilter` is a parameter: a transition
  function on an arbitrary world state, so that stateful filter services are
  covered.  Every run records the calls it made, in order.
* The gorilla/mux router, `strings.ToUpper` and the `net/http` helpers are parameters.
-/

namespace model

/-- Modelled from the spec: the package `model` (type `ProxyError`) is not among the
sources; its two string fields are the ones `ProcessPreFilters`, `ReturnHTTPError`
and `writeError` assign and read. -/
structure ProxyError where
  Status : String
  Message : String
deriving DecidableEq, Repr

end model

namespace manager

/-- A value of Go type `interface{}` as produced by `encoding/json`.  Numbers are kept as
integers and nested arrays and objects in encoded form: the program never inspects them. -/
inductive JSONValue where
  | null
  | bool (b : Bool)
  | number (n : Int)
  | string (s : String)
  | composite (encoded : String)
deriving DecidableEq, Repr

/-- Go type `map[string]interface{}`: the bindings of the map, keys distinct. -/
abbrev JSONObject := List (String × JSONValue)

/-- Go type `map[string][]string`: the bindings of the map, keys distinct. -/
abbrev HeaderMap := List (String × List String)

/-- Filter defines the properties of a pre/post API filter. -/
structure Filter where
  Endpoint : String
  SecretToken : String
  Methods : List String
  Paths : List String
deriving DecidableEq, Repr

/-- FilterData defines the properties of a http Request/Response Body sent to/from a filter. -/
structure FilterData where
  Headers : HeaderMap
  Body : JSONObject
  Status : Int
deriving DecidableEq, Repr

/-- Destination defines the properties of a Destination. -/
structure Destination where
  DestinationURL : String
  Paths : List String
deriving DecidableEq, Repr

/-- ConfigFileFields stores filter config. -/
structure ConfigFileFields where
  Prefilters : List Filter
  Destinations : List Destination
deriving DecidableEq, Repr

/-- A Go `map[string]V` used as a lookup table: `none` means the key is absent. -/
abbrev Table (V : Type) := String → Option V

/-- The table `make(map[string]V)`. -/
def Table.empty {V : Type} : Table V := fun _ => none

/-- The assignment `m[k] = v`. -/
def Table.set {V : Type} (m : Table V) (k : String) (v : V) : Table V :=
  fun k' => if k' = k then some v else m k'

/-- The package-level variables of `manager` that `SetEnv` assigns. -/
structure Globals where
  configFile : String
  CattleURL : String
  DefaultDestination : String
  ConfigFields : ConfigFileFields
  PathPreFilters : Table (List Filter)
  PathDestinations : Table Destination

/-- The three global flags `SetEnv` reads from the `cli.Context`. -/
structure Context where
  config : String
  cattleUrl : String
  defaultDestination : String

/-- The loop of `SetEnv` filling `PathPreFilters`
(`PathPreFilters[path] = append(PathPreFilters[path], filter)`). -/
def buildPathPreFilters (prefilters : List Filter) : Table (List Filter) :=
  prefilters.foldl
    (fun tbl filter =>
      filter.Paths.foldl (fun tbl path => tbl.set path ((tbl path).getD [] ++ [filter])) tbl)
    Table.empty

/-- The loop of `SetEnv` filling `PathDestinations` (`PathDestinations[path] = destination`). -/
def buildPathDestinations (destinations : List Destination) : Table Destination :=
  destinations.foldl
    (fun tbl destination =>
      destination.Paths.foldl (fun tbl path => tbl.set path destination) tbl)
    Table.empty

/-- SetEnv sets the parameters necessary.  `ReadFile` is `ioutil.ReadFile`, `Unmarshal` is
`json.Unmarshal` into a `ConfigFileFields`; `Except.error` is the exit through `log.Fatal`. -/
def SetEnv (c : Context) (ReadFile : String → Except String String)
    (Unmarshal : String → Except String ConfigFileFields) : Except String Globals :=
  let configFile := c.config
  if configFile = "" then
    .error "Please specify path to the APIfilter config.json file"
  else
    let CattleURL := c.cattleUrl
    if CattleURL.length = 0 then
      .error "CATTLE_URL is not set"
    else
      let DefaultDestination :=
        if c.defaultDestination.length = 0 then CattleURL else c.defaultDestination
      match ReadFile configFile with
      | .error _ => .error ("Error reading config.json file at path " ++ configFile)
      | .ok configContent =>
        match Unmarshal configContent with
        | .error err => .error ("config.json data format invalid, error : " ++ err ++ "\n")
        | .ok ConfigFields =>
          .ok
            { configFile := configFile
              CattleURL := CattleURL
              DefaultDestination := DefaultDestination
              ConfigFields := ConfigFields
              PathPreFilters := buildPathPreFilters ConfigFields.Prefilters
              PathDestinations := buildPathDestinations ConfigFields.Destinations }

/-- The function `strconv.Itoa`: the decimal string of an integer. -/
def Itoa (i : Int) : String :=
  match i with
  | Int.ofNat n => Nat.repr n
  | Int.negSucc n => "-" ++ Nat.repr (n + 1)

/-- The verb `%v` of package `fmt` on a `[]string`. -/
def fmtStrings (xs : List String) : String :=
  "[" ++ " ".intercalate xs ++ "]"

/-- The verb `%v` of package `fmt` on a `Filter`: the four fields in declaration order,
separated by blanks, between braces. -/
def fmtFilter (f : Filter) : String :=
  "\x7b" ++ f.Endpoint ++ " " ++ f.SecretToken ++ " " ++ fmtStrings f.Methods ++ " "
    ++ fmtStrings f.Paths ++ "\x7d"

/-- What the HTTP client obtains from a filter endpoint: the status code of the reply and
the `FilterData` that `json.Unmarshal` leaves in a zero-valued `output` (the zero value
itself when the reply is not valid JSON). -/
structure HTTPReply where
  StatusCode : Int
  Decoded : FilterData
deriving DecidableEq, Repr

/-- The POST of `processFilter` (marshal, `http.NewRequest`, `client.Do`, `ioutil.ReadAll`):
from a world state, the endpoint and the payload to an error or a reply, and the next
world state. -/
abbrev Transport (σ : Type) := σ → String → FilterData → Except String HTTPReply × σ

/-- The method `(*Filter).processFilter`. -/
def Filter.processFilter {σ : Type} (filter : Filter) (input : FilterData)
    (T : Transport σ) (w : σ) : Except String FilterData × σ :=
  match T w filter.Endpoint input with
  | (.error err, w') => (.error err, w')
  | (.ok resp, w') => (.ok { resp.Decoded with Status := resp.StatusCode }, w')

/-- One invocation of a filter, as recorded in the log of a run. -/
structure Call where
  filter : Filter
  request : FilterData
  response : Except String FilterData

/-- The state in which the `for` loop of `ProcessPreFilters` is left: `err` is `some` when
the loop was left through one of its two `return` statements. -/
structure LoopExit (σ : Type) where
  inputBody : JSONObject
  inputHeaders : HeaderMap
  err : Option model.ProxyError
  calls : List Call
  world : σ

/-- The `for _, filter := range prefilters` loop of `ProcessPreFilters`. -/
def filterLoop {σ : Type} (T : Transport σ) :
    List Filter → JSONObject → HeaderMap → σ → LoopExit σ
  | [], inputBody, inputHeaders, w =>
    { inputBody := inputBody, inputHeaders := inputHeaders, err := none, calls := [], world := w }
  | filter :: rest, inputBody, inputHeaders, w =>
    let requestData : FilterData := { Body := inputBody, Headers := inputHeaders, Status := 0 }
    match filter.processFilter requestData T w with
    | (.error err, w') =>
      { inputBody := inputBody
        inputHeaders := inputHeaders
        err := some
          { Status := Itoa 500
            Message := "Error " ++ err ++ " processing the filter " ++ fmtFilter filter }
        calls := [{ filter := filter, request := requestData, response := .error err }]
        world := w' }
    | (.ok responseData, w') =>
      if responseData.Status = 200 then
        let inputBody' := if responseData.Body.length ≠ 0 then responseData.Body else inputBody
        let inputHeaders' :=
          if responseData.Headers.length ≠ 0 then responseData.Headers else inputHeaders
        let r := filterLoop T rest inputBody' inputHeaders' w'
        { r with
          calls := { filter := filter, request := requestData, response := .ok responseData }
            :: r.calls }
      else
        { inputBody := inputBody
          inputHeaders := inputHeaders
          err := some
            { Status := Itoa responseData.Status
              Message := "Error response while processing the filter " ++ filter.Endpoint }
          calls := [{ filter := filter, request := requestData, response := .ok responseData }]
          world := w' }

/-- The four results of `ProcessPreFilters`, the calls it made and the world it leaves. -/
structure Outcome (σ : Type) where
  Body : JSONObject
  Headers : HeaderMap
  DestinationURL : String
  Err : model.ProxyError
  calls : List Call
  world : σ

/-- The function `ProcessPreFilters`. -/
def ProcessPreFilters {σ : Type} (g : Globals) (T : Transport σ) (w : σ)
    (path : String) (body : JSONObject) (headers : HeaderMap) : Outcome σ :=
  let prefilters := (g.PathPreFilters path).getD []
  let r := filterLoop T prefilters body headers w
  match r.err with
  | some svcErr =>
    { Body := r.inputBody, Headers := r.inputHeaders, DestinationURL := "", Err := svcErr
      calls := r.calls, world := r.world }
  | none =>
    let destinationURL :=
      match g.PathDestinations path with
      | some destination => destination.DestinationURL
      | none => g.DefaultDestination
    { Body := r.inputBody, Headers := r.inputHeaders, DestinationURL := destinationURL
      Err := { Status := "", Message := "" }, calls := r.calls, world := r.world }

end manager

namespace service

open manager

/-- An inbound `*http.Request`, as far as the handlers read it: `URL` is `r.URL.String()`,
`Path` is `r.URL.Path`, `Body` is the result of `ioutil.ReadAll(r.Body)`. -/
structure Request where
  Method : String
  URL : String
  Path : String
  Header : HeaderMap
  Body : Except String String

/-- The library functions the router and the handlers call: `strings.ToUpper`,
`json.Unmarshal` into a `map[string]interface{}`, `http.NewRequest` and `url.Parse` (each an
error or success), and the path matcher of gorilla/mux (template first, request path
second). -/
structure Library where
  ToUpper : String → String
  Unmarshal : String → Except String JSONObject
  NewRequest : String → String → Except String Unit
  Parse : String → Except String Unit
  pathMatches : String → String → Bool

/-- Two method names with the same upper-cased form, for the upper-casing `upper`. -/
def equalFold (upper : String → String) (a b : String) : Bool := upper a == upper b

/-- What a handler does with the `http.ResponseWriter`: it writes an error payload, or it
hands a request to the reverse proxy of a destination. -/
inductive Response where
  | wroteError (svcError : model.ProxyError)
  | forwarded (destination : String) (method : String) (url : String)
      (body : JSONObject) (header : HeaderMap)
  | forwardedVerbatim (destination : String) (r : Request)

/-- The function `writeError`: the error payload goes to the client. -/
def writeError (svcError : model.ProxyError) : Response :=
  .wroteError svcError

/-- ReturnHTTPError handles sending out CatalogError response. -/
def ReturnHTTPError (httpStatus : Int) (errorMessage : String) : Response :=
  let svcError : model.ProxyError := { Status := Itoa httpStatus, Message := errorMessage }
  writeError svcError

/-- The function `NewProxy`: the target of the reverse proxy, or the error of `url.Parse`. -/
def NewProxy (lib : Library) (target : String) : Except String String :=
  match lib.Parse target with
  | .error err => .error err
  | .ok _ => .ok target

/-- The function `handleRequest`; `path` is the template of the route that matched,
`mux.CurrentRoute(r).GetPathTemplate()`. -/
def handleRequest {σ : Type} (lib : Library) (g : Globals) (T : Transport σ) (w : σ)
    (path : String) (r : Request) : Response × List Call × σ :=
  match r.Body with
  | .error err => (ReturnHTTPError 400 ("Error reading json request body, err: " ++ err), [], w)
  | .ok bodyBytes =>
    let decoded : Except String JSONObject :=
      if bodyBytes.length > 0 then lib.Unmarshal bodyBytes else .ok []
    match decoded with
    | .error err => (ReturnHTTPError 400 ("Error reading json request body: " ++ err), [], w)
    | .ok jsonInput =>
      let headerMap := r.Header
      let out := ProcessPreFilters g T w path jsonInput headerMap
      if out.Err.Status ≠ "" then
        (writeError out.Err, out.calls, out.world)
      else
        match lib.NewRequest r.Method r.URL with
        | .error _ =>
          (ReturnHTTPError 400
            ("Error creating new request for path " ++ r.URL ++ " to send to destination"),
            out.calls, out.world)
        | .ok _ =>
          match NewProxy lib out.DestinationURL with
          | .error _ =>
            (ReturnHTTPError 500
              ("Error creating a reverse proxy for destination " ++ out.DestinationURL),
              out.calls, out.world)
          | .ok target =>
            (.forwarded target r.Method r.URL out.Body out.Headers, out.calls, out.world)

/-- The function `handleNotFoundRequest`. -/
def handleNotFoundRequest (lib : Library) (g : Globals) (r : Request) : Response :=
  match NewProxy lib g.DefaultDestination with
  | .error _ =>
    ReturnHTTPError 500
      ("Error creating a reverse proxy for destination " ++ g.DefaultDestination)
  | .ok target => .forwardedVerbatim target r

/-- A route of the mux router: `router.Methods(method).Path(template)`; every route of this
program has the handler `handleRequest`. -/
structure Route where
  method : String
  template : String
deriving DecidableEq, Repr

/-- NewRouter creates and configures a mux router: the routes it registers, in order.  The
handler for a request that no route matches is `handleNotFoundRequest`. -/
def NewRouter (lib : Library) (configFields : ConfigFileFields) : List Route :=
  configFields.Prefilters.flatMap fun filter =>
    filter.Paths.flatMap fun path =>
      filter.Methods.map fun method => { method := lib.ToUpper method, template := path }

/-- The route mux selects for a request: the first one registered whose method is the
request method and whose template matches the request path (the matching of the mux
releases in which a request that matches no route goes to the `NotFoundHandler`). -/
def matchRoute (lib : Library) (routes : List Route) (r : Request) : Option Route :=
  routes.find? fun rt => rt.method == r.Method && lib.pathMatches rt.template r.Path

/-- The router serving one request: `handleRequest` on the matched route, else the
`NotFoundHandler`. -/
def ServeHTTP {σ : Type} (lib : Library) (g : Globals) (T : Transport σ) (w : σ)
    (routes : List Route) (r : Request) : Response × List Call × σ :=
  match matchRoute lib routes r with
  | some rt => handleRequest lib g T w rt.template r
  | none => (handleNotFoundRequest lib g r, [], w)

end service

namespace manager

/-! ## Vocabulary for the statements -/

/-- A recorded call whose filter answered status 200 without error. -/
def Call.passed (c : Call) : Bool :=
  match c.response with
  | .ok d => decide (d.Status = 200)
  | .error _ => false

/-- The body the filter of a recorded call answered (empty when the invocation failed). -/
def Call.responseBody (c : Call) : JSONObject :=
  match c.response with
  | .ok d => d.Body
  | .error _ => []

/-- The headers the filter of a recorded call answered (empty when the invocation failed). -/
def Call.responseHeaders (c : Call) : HeaderMap :=
  match c.response with
  | .ok d => d.Headers
  | .error _ => []

/-- The latest non-empty entry of `rs`, and `init` when every entry is empty. -/
def latestNonEmpty {α : Type} (init : List α) (rs : List (List α)) : List α :=
  ((rs.filter fun r => r.length ≠ 0).getLast?).getD init

/-- A recorded call whose filter answered status 200 without error, with an empty body and
empty headers. -/
def Call.unchanged (c : Call) : Bool :=
  match c.response with
  | .ok d => decide (d.Status = 200 ∧ d.Body.length = 0 ∧ d.Headers.length = 0)
  | .error _ => false

/-! ## A small configuration used to exercise the statements -/

/-- A filter on `/widgets` and `/both`, for GET. -/
def demoFilterA : Filter :=
  { Endpoint := "http://a", SecretToken := "s1", Methods := ["GET"], Paths := ["/widgets", "/both"] }

/-- A filter on `/both`, for POST (declared in lower case). -/
def demoFilterB : Filter :=
  { Endpoint := "http://b", SecretToken := "s2", Methods := ["post"], Paths := ["/both"] }

/-- A filter on `/down` whose endpoint is unreachable. -/
def demoFilterC : Filter :=
  { Endpoint := "http://down", SecretToken := "s3", Methods := ["GET"], Paths := ["/down"] }

/-- Three filters; two destination entries claim `/widgets`, a third path has only a
destination entry. -/
def demoConfig : ConfigFileFields :=
  { Prefilters := [demoFilterA, demoFilterB, demoFilterC]
    Destinations :=
      [ { DestinationURL := "http://backend1", Paths := ["/widgets"] },
        { DestinationURL := "http://backend2", Paths := ["/widgets", "/plain"] } ] }

/-- The flags: a config file, a cattle URL, no default destination. -/
def demoContext : Context :=
  { config := "config.json", cattleUrl := "http://cattle", defaultDestination := "" }

/-- A file system holding one file. -/
def demoReadFile : String → Except String String := fun _ => .ok "(contents of config.json)"

/-- The decoding of that file. -/
def demoUnmarshal : String → Except String ConfigFileFields := fun _ => .ok demoConfig

/-- The globals `SetEnv` computes from the demo flags and file. -/
def demoGlobals : Globals :=
  { configFile := "config.json"
    CattleURL := "http://cattle"
    DefaultDestination := "http://cattle"
    ConfigFields := demoConfig
    PathPreFilters := buildPathPreFilters demoConfig.Prefilters
    PathDestinations := buildPathDestinations demoConfig.Destinations }

/-- The zero value of `FilterData`. -/
def zeroFilterData : FilterData := { Headers := [], Body := [], Status := 0 }

/-- Filter services counting the calls they receive: `http://a` approves and rewrites the
body to the object with `x` bound to 1, `http://b` rejects with 403, nothing else answers. -/
def demoTransport : Transport Nat := fun n endpoint _ =>
  if endpoint = "http://a" then
    (.ok { StatusCode := 200
           Decoded := { Headers := [], Body := [("x", JSONValue.number 1)], Status := 0 } }, n + 1)
  else if endpoint = "http://b" then
    (.ok { StatusCode := 403, Decoded := zeroFilterData }, n + 1)
  else
    (.error "connection refused", n + 1)

/-- Filter services that approve everything and request no change. -/
def approveAll : Transport Nat := fun n _ _ =>
  (.ok { StatusCode := 200, Decoded := zeroFilterData }, n + 1)

/-- Filter services that approve a body of at most one field and request no change, and
reject any larger body with 413. -/
def approveSmall : Transport Nat := fun n _ req =>
  if req.Body.length ≤ 1 then (.ok { StatusCode := 200, Decoded := zeroFilterData }, n + 1)
  else (.ok { StatusCode := 413, Decoded := zeroFilterData }, n + 1)

end manager

namespace service

open manager

/-- The upper-casing of the ASCII letters of a text: what `strings.ToUpper` returns on the
ASCII method names of the demo configuration. -/
def upperASCII (s : String) : String := String.mk (s.data.map Char.toUpper)

/-- Library stubs: ASCII upper-casing, every non-empty body decodes to the object binding
`x` to 0, every request and URL is well formed, a template matches the path equal to it. -/
def demoLibrary : Library :=
  { ToUpper := upperASCII
    Unmarshal := fun _ => .ok [("x", JSONValue.number 0)]
    NewRequest := fun _ _ => .ok ()
    Parse := fun _ => .ok ()
    pathMatches := fun template path => template == path }

/-- A GET request to `/both`. -/
def demoGetBoth : Request :=
  { Method := "GET", URL := "/both", Path := "/both", Header := [("Accept", ["text/plain"])]
    Body := .ok "(some JSON text)" }

/-- A GET request to `/plain`, a path that only a destination entry lists. -/
def demoGetPlain : Request :=
  { Method := "GET", URL := "/plain", Path := "/plain", Header := [], Body := .ok "" }

/-- A GET request to `/down`. -/
def demoGetDown : Request :=
  { Method := "GET", URL := "/down", Path := "/down", Header := [], Body := .ok "" }

end service

namespace manager

/-- The demo configuration with another secret token for the third filter, and nothing
else changed. -/
def demoConfigRotated : ConfigFileFields :=
  { Prefilters := [demoFilterA, demoFilterB, { demoFilterC with SecretToken := "rotated" }]
    Destinations := demoConfig.Destinations }

/-- The decoding of the file holding the rotated configuration. -/
def demoUnmarshalRotated : String → Except String ConfigFileFields := fun _ => .ok demoConfigRotated

/-- The globals `SetEnv` computes from the demo flags and the rotated configuration. -/
def demoGlobalsRotated : Globals :=
  { configFile := "config.json"
    CattleURL := "http://cattle"
    DefaultDestination := "http://cattle"
    ConfigFields := demoConfigRotated
    PathPreFilters := buildPathPreFilters demoConfigRotated.Prefilters
    PathDestinations := buildPathDestinations demoConfigRotated.Destinations }

end manager

namespace manager

/-! ## Auxiliary facts -/

theorem toDigitsCore_ne_nil (b : Nat) :
    ∀ (fuel n : Nat) (ds : List Char), ds ≠ [] → Nat.toDigitsCore b fuel n ds ≠ [] := by
  intro fuel
  induction fuel with
  | zero => intro n ds h; simpa [Nat.toDigitsCore] using h
  | succ k ih =>
    intro n ds _
    simp only [Nat.toDigitsCore]
    split
    · simp
    · exact ih _ _ (by simp)

theorem repr_ne_empty (n : Nat) : Nat.repr n ≠ "" := by
  intro h
  have h1 : (Nat.repr n).data = [] := by rw [h]
  simp only [Nat.repr, List.asString, Nat.toDigits, Nat.toDigitsCore] at h1
  split at h1
  · simp at h1
  · exact toDigitsCore_ne_nil 10 _ _ _ (by simp) h1

theorem Itoa_ne_empty (i : Int) : Itoa i ≠ "" := by
  cases i with
  | ofNat n => exact repr_ne_empty n
  | negSucc n =>
    intro h
    have h1 : (Itoa (Int.negSucc n)).data = [] := by rw [h]
    simp [Itoa] at h1

section loop

variable {σ : Type} (T : Transport σ)

theorem filterLoop_nil (b : JSONObject) (h : HeaderMap) (w : σ) :
    filterLoop T [] b h w
      = { inputBody := b, inputHeaders := h, err := none, calls := [], world := w } := rfl

theorem filterLoop_cons_error (f : Filter) (rest : List Filter) (b : JSONObject)
    (h : HeaderMap) (w w' : σ) (e : String)
    (ht : T w f.Endpoint { Body := b, Headers := h, Status := 0 } = (.error e, w')) :
    filterLoop T (f :: rest) b h w
      = { inputBody := b, inputHeaders := h
          err := some { Status := Itoa 500
                        Message := "Error " ++ e ++ " processing the filter " ++ fmtFilter f }
          calls := [{ filter := f, request := { Body := b, Headers := h, Status := 0 }
                      response := .error e }]
          world := w' } := by
  simp [filterLoop, Filter.processFilter, ht]

theorem filterLoop_cons_reject (f : Filter) (rest : List Filter) (b : JSONObject)
    (h : HeaderMap) (w w' : σ) (reply : HTTPReply)
    (ht : T w f.Endpoint { Body := b, Headers := h, Status := 0 } = (.ok reply, w'))
    (hs : reply.StatusCode ≠ 200) :
    filterLoop T (f :: rest) b h w
      = { inputBody := b, inputHeaders := h
          err := some { Status := Itoa reply.StatusCode
                        Message := "Error response while processing the filter " ++ f.Endpoint }
          calls := [{ filter := f, request := { Body := b, Headers := h, Status := 0 }
                      response := .ok { reply.Decoded with Status := reply.StatusCode } }]
          world := w' } := by
  simp [filterLoop, Filter.processFilter, ht, hs]

theorem filterLoop_cons_pass (f : Filter) (rest : List Filter) (b : JSONObject)
    (h : HeaderMap) (w w' : σ) (reply : HTTPReply)
    (ht : T w f.Endpoint { Body := b, Headers := h, Status := 0 } = (.ok reply, w'))
    (hs : reply.StatusCode = 200) :
    filterLoop T (f :: rest) b h w
      = { filterLoop T rest
            (if reply.Decoded.Body.length ≠ 0 then reply.Decoded.Body else b)
            (if reply.Decoded.Headers.length ≠ 0 then reply.Decoded.Headers else h) w' with
          calls := { filter := f, request := { Body := b, Headers := h, Status := 0 }
                     response := .ok { reply.Decoded with Status := reply.StatusCode } }
            :: (filterLoop T rest
                  (if reply.Decoded.Body.length ≠ 0 then reply.Decoded.Body else b)
                  (if reply.Decoded.Headers.length ≠ 0 then reply.Decoded.Headers else h)
                  w').calls } := by
  simp [filterLoop, Filter.processFilter, ht, hs]

/-- The three ways one round of the loop can go. -/
theorem transport_cases (w : σ) (ep : String) (req : FilterData) :
    (∃ e w', T w ep req = (.error e, w')) ∨
    (∃ reply w', T w ep req = (.ok reply, w') ∧ reply.StatusCode ≠ 200) ∨
    (∃ reply w', T w ep req = (.ok reply, w') ∧ reply.StatusCode = 200) := by
  rcases hT : T w ep req with ⟨res, w'⟩
  cases res with
  | error e => exact Or.inl ⟨e, w', rfl⟩
  | ok reply =>
    by_cases hs : reply.StatusCode = 200
    · exact Or.inr (Or.inr ⟨reply, w', rfl, hs⟩)
    · exact Or.inr (Or.inl ⟨reply, w', rfl, hs⟩)

/-- Running the loop over `pre ++ rest`, when the run over `pre` falls through, is the run
over `rest` from where the first run stopped, the two call logs concatenated. -/
theorem filterLoop_append (pre rest : List Filter) :
    ∀ (b : JSONObject) (h : HeaderMap) (w : σ),
      (filterLoop T pre b h w).err = none →
      filterLoop T (pre ++ rest) b h w
        = { filterLoop T rest (filterLoop T pre b h w).inputBody
              (filterLoop T pre b h w).inputHeaders (filterLoop T pre b h w).world with
            calls := (filterLoop T pre b h w).calls
              ++ (filterLoop T rest (filterLoop T pre b h w).inputBody
                    (filterLoop T pre b h w).inputHeaders (filterLoop T pre b h w).world).calls } := by
  induction pre with
  | nil => intro b h w _; simp [filterLoop_nil]
  | cons f fs ih =>
    intro b h w hnone
    rcases transport_cases T w f.Endpoint { Body := b, Headers := h, Status := 0 } with
      ⟨e, w', ht⟩ | ⟨reply, w', ht, hs⟩ | ⟨reply, w', ht, hs⟩
    · rw [filterLoop_cons_error T f fs b h w w' e ht] at hnone; simp at hnone
    · rw [filterLoop_cons_reject T f fs b h w w' reply ht hs] at hnone; simp at hnone
    · rw [filterLoop_cons_pass T f fs b h w w' reply ht hs] at hnone
      simp only at hnone
      rw [List.cons_append, filterLoop_cons_pass T f (fs ++ rest) b h w w' reply ht hs,
        filterLoop_cons_pass T f fs b h w w' reply ht hs, ih _ _ _ hnone]
      simp

/-- The loop falls through exactly when every recorded call passed. -/
theorem filterLoop_err_none_iff (chain : List Filter) :
    ∀ (b : JSONObject) (h : HeaderMap) (w : σ),
      (filterLoop T chain b h w).err = none ↔
        ∀ c ∈ (filterLoop T chain b h w).calls, c.passed = true := by
  induction chain with
  | nil => intro b h w; simp [filterLoop_nil]
  | cons f fs ih =>
    intro b h w
    rcases transport_cases T w f.Endpoint { Body := b, Headers := h, Status := 0 } with
      ⟨e, w', ht⟩ | ⟨reply, w', ht, hs⟩ | ⟨reply, w', ht, hs⟩
    · rw [filterLoop_cons_error T f fs b h w w' e ht]; simp [Call.passed]
    · rw [filterLoop_cons_reject T f fs b h w w' reply ht hs]; simp [Call.passed, hs]
    · rw [filterLoop_cons_pass T f fs b h w w' reply ht hs]
      simp only [List.mem_cons, forall_eq_or_imp]
      rw [ih]
      simp [Call.passed, hs]

/-- The filters of the recorded calls are an initial segment of the chain, and the whole
chain when the loop falls through. -/
theorem filterLoop_calls_filters (chain : List Filter) :
    ∀ (b : JSONObject) (h : HeaderMap) (w : σ),
      (filterLoop T chain b h w).calls.map (fun c => c.filter)
          = chain.take (filterLoop T chain b h w).calls.length ∧
        ((filterLoop T chain b h w).err = none →
          (filterLoop T chain b h w).calls.map (fun c => c.filter) = chain) := by
  induction chain with
  | nil => intro b h w; simp [filterLoop_nil]
  | cons f fs ih =>
    intro b h w
    rcases transport_cases T w f.Endpoint { Body := b, Headers := h, Status := 0 } with
      ⟨e, w', ht⟩ | ⟨reply, w', ht, hs⟩ | ⟨reply, w', ht, hs⟩
    · rw [filterLoop_cons_error T f fs b h w w' e ht]; simp
    · rw [filterLoop_cons_reject T f fs b h w w' reply ht hs]; simp
    · rw [filterLoop_cons_pass T f fs b h w w' reply ht hs]
      simp only [List.map_cons, List.length_cons, List.take_succ_cons, List.cons.injEq, true_and]
      exact ih _ _ _

/-- An error left by the loop never has an empty status. -/
theorem filterLoop_err_status (chain : List Filter) :
    ∀ (b : JSONObject) (h : HeaderMap) (w : σ) (e : model.ProxyError),
      (filterLoop T chain b h w).err = some e → e.Status ≠ "" := by
  induction chain with
  | nil => intro b h w e he; simp [filterLoop_nil] at he
  | cons f fs ih =>
    intro b h w e he
    rcases transport_cases T w f.Endpoint { Body := b, Headers := h, Status := 0 } with
      ⟨e', w', ht⟩ | ⟨reply, w', ht, hs⟩ | ⟨reply, w', ht, hs⟩
    · rw [filterLoop_cons_error T f fs b h w w' e' ht] at he
      simp only [Option.some.injEq] at he
      rw [← he]; exact Itoa_ne_empty 500
    · rw [filterLoop_cons_reject T f fs b h w w' reply ht hs] at he
      simp only [Option.some.injEq] at he
      rw [← he]; exact Itoa_ne_empty _
    · rw [filterLoop_cons_pass T f fs b h w w' reply ht hs] at he
      exact ih _ _ _ e he

end loop

theorem latestNonEmpty_nil {α : Type} (init : List α) : latestNonEmpty init [] = init := rfl

theorem latestNonEmpty_cons {α : Type} (init x : List α) (xs : List (List α)) :
    latestNonEmpty init (x :: xs)
      = latestNonEmpty (if x.length ≠ 0 then x else init) xs := by
  unfold latestNonEmpty
  by_cases hx : x.length ≠ 0
  · have hd : decide (x.length ≠ 0) = true := by simpa using hx
    rw [List.filter_cons, if_pos hd, List.getLast?_cons, if_pos hx]
    cases (List.filter (fun r => decide (r.length ≠ 0)) xs).getLast? <;> rfl
  · have hd : ¬ (decide (x.length ≠ 0) = true) := by simpa using hx
    rw [List.filter_cons, if_neg hd, if_neg hx]

theorem latestNonEmpty_of_all_empty {α : Type} (init : List α) (rs : List (List α))
    (h : ∀ r ∈ rs, r.length = 0) : latestNonEmpty init rs = init := by
  induction rs with
  | nil => rfl
  | cons x xs ih =>
    rw [latestNonEmpty_cons, if_neg (by simpa using h x (List.mem_cons_self x xs))]
    exact ih (fun r hr => h r (List.mem_cons_of_mem x hr))

section threading

variable {σ : Type} (T : Transport σ)

/-- When every filter of the chain answers 200 with nothing to change, whatever it is
sent, the loop falls through with the body and the headers it started from. -/
theorem filterLoop_unchanged (chain : List Filter)
    (hall : ∀ f ∈ chain, ∀ (w0 : σ) (req : FilterData), ∃ reply w1,
      T w0 f.Endpoint req = (.ok reply, w1) ∧ reply.StatusCode = 200 ∧
        reply.Decoded.Body = [] ∧ reply.Decoded.Headers = []) :
    ∀ (b : JSONObject) (h : HeaderMap) (w : σ),
      (filterLoop T chain b h w).err = none ∧ (filterLoop T chain b h w).inputBody = b ∧
        (filterLoop T chain b h w).inputHeaders = h := by
  induction chain with
  | nil => intro b h w; simp [filterLoop_nil]
  | cons f fs ih =>
    intro b h w
    obtain ⟨reply, w1, ht, hs, hb, hh⟩ :=
      hall f (List.mem_cons_self f fs) w { Body := b, Headers := h, Status := 0 }
    rw [filterLoop_cons_pass T f fs b h w w1 reply ht hs]
    simp only [hb, hh, List.length_nil, ne_eq, not_true_eq_false, if_false]
    exact ih (fun f' hf' => hall f' (List.mem_cons_of_mem f hf')) b h w1

/-- When every recorded call passed, each call was sent the latest non-empty body and the
latest non-empty headers answered before it, and the loop ends with the latest non-empty
body and headers answered at all. -/
theorem filterLoop_threading (chain : List Filter) :
    ∀ (b : JSONObject) (h : HeaderMap) (w : σ),
      (∀ c ∈ (filterLoop T chain b h w).calls, c.passed = true) →
      (∀ (k : Nat) (hk : k < (filterLoop T chain b h w).calls.length),
          ((filterLoop T chain b h w).calls.get ⟨k, hk⟩).request.Body
            = latestNonEmpty b
                (((filterLoop T chain b h w).calls.take k).map Call.responseBody) ∧
          ((filterLoop T chain b h w).calls.get ⟨k, hk⟩).request.Headers
            = latestNonEmpty h
                (((filterLoop T chain b h w).calls.take k).map Call.responseHeaders)) ∧
        (filterLoop T chain b h w).inputBody
          = latestNonEmpty b ((filterLoop T chain b h w).calls.map Call.responseBody) ∧
        (filterLoop T chain b h w).inputHeaders
          = latestNonEmpty h ((filterLoop T chain b h w).calls.map Call.responseHeaders) := by
  induction chain with
  | nil =>
    intro b h w _
    simp [filterLoop_nil, latestNonEmpty_nil]
  | cons f fs ih =>
    intro b h w
    rcases transport_cases T w f.Endpoint { Body := b, Headers := h, Status := 0 } with
      ⟨e, w', ht⟩ | ⟨reply, w', ht, hs⟩ | ⟨reply, w', ht, hs⟩
    · rw [filterLoop_cons_error T f fs b h w w' e ht]
      intro hall
      have := hall _ (List.mem_singleton_self _)
      simp [Call.passed] at this
    · rw [filterLoop_cons_reject T f fs b h w w' reply ht hs]
      intro hall
      have := hall _ (List.mem_singleton_self _)
      simp [Call.passed, hs] at this
    · rw [filterLoop_cons_pass T f fs b h w w' reply ht hs]
      intro hall
      have hrest := ih _ _ _ (fun c hc => hall c (List.mem_cons_of_mem _ hc))
      obtain ⟨hreq, hB, hH⟩ := hrest
      refine ⟨?_, ?_, ?_⟩
      · intro k hk
        cases k with
        | zero => simp [latestNonEmpty_nil]
        | succ k =>
          simp only [List.length_cons, Nat.add_lt_add_iff_right] at hk
          have := hreq k hk
          simpa [latestNonEmpty_cons, Call.responseBody, Call.responseHeaders] using this
      · simpa [latestNonEmpty_cons, Call.responseBody] using hB
      · simpa [latestNonEmpty_cons, Call.responseHeaders] using hH

end threading

/-! ### The tables built by `SetEnv` -/

theorem Table.set_apply {V : Type} (m : Table V) (k : String) (v : V) (p : String) :
    (m.set k v) p = if p = k then some v else m p := rfl

/-- The inner loop over the paths of one filter: the filter is appended to the list of `p`
once for every occurrence of `p` among its paths. -/
theorem foldl_paths_prefilters (f : Filter) (paths : List String) :
    ∀ (tbl : Table (List Filter)) (p : String),
      (paths.foldl (fun tbl path => tbl.set path ((tbl path).getD [] ++ [f])) tbl) p
        = if paths.count p = 0 then tbl p
          else some ((tbl p).getD [] ++ List.replicate (paths.count p) f) := by
  induction paths with
  | nil => intro tbl p; simp
  | cons q qs ih =>
    intro tbl p
    rw [List.foldl_cons, ih]
    by_cases hpq : p = q
    · subst hpq
      simp only [Table.set_apply, if_true, List.count_cons_self, Option.getD_some]
      by_cases hc : List.count p qs = 0
      · simp [hc]
      · simp [hc, List.replicate_succ]
    · have hqp : ¬ ((q == p) = true) := by simpa using fun h => hpq h.symm
      simp [Table.set_apply, hpq, List.count_cons, hqp]

/-- The table of filters after the outer loop over `fs`, started from `tbl`. -/
theorem foldl_prefilters (fs : List Filter) :
    ∀ (tbl : Table (List Filter)) (p : String),
      (fs.foldl
          (fun tbl filter =>
            filter.Paths.foldl (fun tbl path => tbl.set path ((tbl path).getD [] ++ [filter])) tbl)
          tbl) p
        = if fs.flatMap (fun f => List.replicate (f.Paths.count p) f) = [] then tbl p
          else some ((tbl p).getD []
            ++ fs.flatMap (fun f => List.replicate (f.Paths.count p) f)) := by
  induction fs with
  | nil => intro tbl p; simp
  | cons f fs ih =>
    intro tbl p
    rw [List.foldl_cons, ih, foldl_paths_prefilters]
    by_cases hc : f.Paths.count p = 0
    · simp [hc]
    · have hne : List.replicate (f.Paths.count p) f ≠ [] := by
        intro h
        have := congrArg List.length h
        simp at this
        exact hc (by simpa [List.count_eq_zero] using this)
      by_cases hrest : fs.flatMap (fun f => List.replicate (f.Paths.count p) f) = []
      · simp [hc, hne, hrest]
      · simp [hc, hne, hrest]

theorem buildPathPreFilters_apply (fs : List Filter) (p : String) :
    buildPathPreFilters fs p
      = if fs.flatMap (fun f => List.replicate (f.Paths.count p) f) = [] then none
        else some (fs.flatMap (fun f => List.replicate (f.Paths.count p) f)) := by
  unfold buildPathPreFilters
  rw [foldl_prefilters]
  simp [Table.empty]

/-- When no filter lists a path twice, the registrations for `p` are the filters listing
`p`, in declaration order. -/
theorem flatMap_replicate_eq_filter (fs : List Filter) (p : String)
    (hnodup : ∀ f ∈ fs, f.Paths.Nodup) :
    fs.flatMap (fun f => List.replicate (f.Paths.count p) f)
      = fs.filter (fun f => decide (p ∈ f.Paths)) := by
  induction fs with
  | nil => simp
  | cons f fs ih =>
    rw [List.flatMap_cons, ih (fun f' hf' => hnodup f' (List.mem_cons_of_mem f hf'))]
    by_cases hp : p ∈ f.Paths
    · rw [List.count_eq_one_of_mem (hnodup f (List.mem_cons_self f fs)) hp]
      simp [hp]
    · rw [List.count_eq_zero.2 hp]
      simp [hp]

/-- Membership in the list registered for `p`, whatever the configuration. -/
theorem mem_buildPathPreFilters (fs : List Filter) (p : String) (f : Filter) :
    f ∈ (buildPathPreFilters fs p).getD [] ↔ f ∈ fs ∧ p ∈ f.Paths := by
  rw [buildPathPreFilters_apply]
  have hmem : f ∈ fs.flatMap (fun f => List.replicate (f.Paths.count p) f)
      ↔ f ∈ fs ∧ p ∈ f.Paths := by
    simp only [List.mem_flatMap, List.mem_replicate, ne_eq, List.count_eq_zero, not_not]
    constructor
    · rintro ⟨a, ha, hp, rfl⟩; exact ⟨ha, hp⟩
    · rintro ⟨ha, hp⟩; exact ⟨f, ha, hp, rfl⟩
  split
  · next h =>
    rw [h] at hmem
    simpa using hmem
  · simpa using hmem

/-- The inner loop over the paths of one destination entry. -/
theorem foldl_paths_destinations (d : Destination) (paths : List String) :
    ∀ (tbl : Table Destination) (p : String),
      (paths.foldl (fun tbl path => tbl.set path d) tbl) p
        = if p ∈ paths then some d else tbl p := by
  induction paths with
  | nil => intro tbl p; simp
  | cons q qs ih =>
    intro tbl p
    rw [List.foldl_cons, ih]
    by_cases hq : p ∈ qs
    · simp [hq]
    · by_cases hpq : p = q
      · simp [hq, hpq, Table.set_apply]
      · simp [hq, hpq, Table.set_apply]

/-- The table of destinations after the outer loop over `ds`, started from `tbl`: the last
entry of `ds` listing `p` wins. -/
theorem foldl_destinations (ds : List Destination) :
    ∀ (tbl : Table Destination) (p : String),
      (ds.foldl
          (fun tbl destination =>
            destination.Paths.foldl (fun tbl path => tbl.set path destination) tbl)
          tbl) p
        = ((ds.filter (fun d => decide (p ∈ d.Paths))).getLast?).or (tbl p) := by
  induction ds with
  | nil => intro tbl p; simp
  | cons d ds ih =>
    intro tbl p
    rw [List.foldl_cons, ih, foldl_paths_destinations]
    by_cases hp : p ∈ d.Paths
    · simp only [hp, if_true, List.filter_cons, decide_True, List.getLast?_cons]
      cases (List.filter (fun d => decide (p ∈ d.Paths)) ds).getLast? <;> rfl
    · simp [hp, List.filter_cons]

theorem buildPathDestinations_apply (ds : List Destination) (p : String) :
    buildPathDestinations ds p = (ds.filter (fun d => decide (p ∈ d.Paths))).getLast? := by
  unfold buildPathDestinations
  rw [foldl_destinations]
  simp [Table.empty]

/-- What a successful `SetEnv` leaves in the globals. -/
theorem SetEnv_ok (c : Context) (ReadFile : String → Except String String)
    (Unmarshal : String → Except String ConfigFileFields) (g : Globals)
    (hg : SetEnv c ReadFile Unmarshal = .ok g) :
    g.PathPreFilters = buildPathPreFilters g.ConfigFields.Prefilters ∧
      g.PathDestinations = buildPathDestinations g.ConfigFields.Destinations ∧
      (∃ content, ReadFile c.config = .ok content ∧ Unmarshal content = .ok g.ConfigFields) ∧
      g.DefaultDestination
        = (if c.defaultDestination.length = 0 then c.cattleUrl else c.defaultDestination) := by
  unfold SetEnv at hg
  simp only [] at hg
  split at hg
  · cases hg
  · split at hg
    · cases hg
    · split at hg
      · cases hg
      · next content hread =>
        split at hg
        · cases hg
        · next cfg hcfg =>
          cases hg
          exact ⟨rfl, rfl, ⟨content, hread, hcfg⟩, rfl⟩

section process

variable {σ : Type} (g : Globals) (T : Transport σ) (w : σ) (path : String)
  (body : JSONObject) (headers : HeaderMap)

theorem ProcessPreFilters_calls :
    (ProcessPreFilters g T w path body headers).calls
      = (filterLoop T ((g.PathPreFilters path).getD []) body headers w).calls := by
  unfold ProcessPreFilters
  simp only []
  split <;> rfl

theorem ProcessPreFilters_world :
    (ProcessPreFilters g T w path body headers).world
      = (filterLoop T ((g.PathPreFilters path).getD []) body headers w).world := by
  unfold ProcessPreFilters
  simp only []
  split <;> rfl

theorem ProcessPreFilters_Body :
    (ProcessPreFilters g T w path body headers).Body
      = (filterLoop T ((g.PathPreFilters path).getD []) body headers w).inputBody := by
  unfold ProcessPreFilters
  simp only []
  split <;> rfl

theorem ProcessPreFilters_Headers :
    (ProcessPreFilters g T w path body headers).Headers
      = (filterLoop T ((g.PathPreFilters path).getD []) body headers w).inputHeaders := by
  unfold ProcessPreFilters
  simp only []
  split <;> rfl

theorem ProcessPreFilters_Err_of_some (e : model.ProxyError)
    (h : (filterLoop T ((g.PathPreFilters path).getD []) body headers w).err = some e) :
    (ProcessPreFilters g T w path body headers).Err = e := by
  unfold ProcessPreFilters
  simp only [h]

theorem ProcessPreFilters_of_none
    (h : (filterLoop T ((g.PathPreFilters path).getD []) body headers w).err = none) :
    (ProcessPreFilters g T w path body headers).Err = { Status := "", Message := "" } ∧
      (ProcessPreFilters g T w path body headers).DestinationURL
        = (match g.PathDestinations path with
           | some destination => destination.DestinationURL
           | none => g.DefaultDestination) := by
  unfold ProcessPreFilters
  simp only [h, and_self]

/-- The status of the returned error is empty exactly when the loop fell through. -/
theorem ProcessPreFilters_status_empty_iff :
    (ProcessPreFilters g T w path body headers).Err.Status = "" ↔
      (filterLoop T ((g.PathPreFilters path).getD []) body headers w).err = none := by
  constructor
  · intro h
    cases he : (filterLoop T ((g.PathPreFilters path).getD []) body headers w).err with
    | none => rfl
    | some e =>
      rw [ProcessPreFilters_Err_of_some g T w path body headers e he] at h
      exact absurd h (filterLoop_err_status T _ _ _ _ e he)
  · intro h
    rw [(ProcessPreFilters_of_none g T w path body headers h).1]

end process

theorem Call.passed_eq_false_iff (c : Call) :
    c.passed = false ↔
      (∃ e, c.response = .error e) ∨ (∃ d, c.response = .ok d ∧ d.Status ≠ 200) := by
  cases c with
  | mk f req resp =>
    cases resp with
    | error e => simp [Call.passed]
    | ok d => simp [Call.passed]

theorem Call.unchanged_iff (c : Call) :
    c.unchanged = true ↔
      c.passed = true ∧ c.responseBody.length = 0 ∧ c.responseHeaders.length = 0 := by
  cases c with
  | mk f req resp =>
    cases resp with
    | error e => simp [Call.unchanged, Call.passed]
    | ok d => simp [Call.unchanged, Call.passed, Call.responseBody, Call.responseHeaders]

end manager

namespace service

open manager

/-! ### The router -/

theorem mem_NewRouter (lib : Library) (cfg : ConfigFileFields) (rt : Route) :
    rt ∈ NewRouter lib cfg ↔
      ∃ f ∈ cfg.Prefilters, ∃ p ∈ f.Paths, ∃ m ∈ f.Methods,
        rt = { method := lib.ToUpper m, template := p } := by
  unfold NewRouter
  simp only [List.mem_flatMap, List.mem_map]
  constructor
  · rintro ⟨f, hf, p, hp, m, hm, rfl⟩; exact ⟨f, hf, p, hp, m, hm, rfl⟩
  · rintro ⟨f, hf, p, hp, m, hm, rfl⟩; exact ⟨f, hf, p, hp, m, hm, rfl⟩

theorem matchRoute_some (lib : Library) (routes : List Route) (r : Request) (rt : Route)
    (h : matchRoute lib routes r = some rt) :
    rt ∈ routes ∧ rt.method = r.Method ∧ lib.pathMatches rt.template r.Path = true := by
  unfold matchRoute at h
  have hmem := List.mem_of_find?_eq_some h
  have hp := List.find?_some h
  simp only [Bool.and_eq_true, beq_iff_eq] at hp
  exact ⟨hmem, hp.1, hp.2⟩

/-- The calls `handleRequest` makes are calls of `ProcessPreFilters` on the same path. -/
theorem handleRequest_calls {σ : Type} (lib : Library) (g : Globals) (T : Transport σ)
    (w : σ) (path : String) (r : Request) :
    (handleRequest lib g T w path r).2.1 = [] ∨
      ∃ body, (handleRequest lib g T w path r).2.1
        = (ProcessPreFilters g T w path body r.Header).calls := by
  unfold handleRequest
  split
  · exact Or.inl rfl
  · simp only []
    split
    · exact Or.inl rfl
    · next jsonInput _ =>
      refine Or.inr ⟨jsonInput, ?_⟩
      split
      · rfl
      · split
        · rfl
        · split <;> rfl

/-- Every call of `ProcessPreFilters` is to a filter of the list registered for the path. -/
theorem ProcessPreFilters_calls_mem {σ : Type} (g : Globals) (T : Transport σ) (w : σ)
    (path : String) (body : JSONObject) (headers : HeaderMap) (c : Call)
    (hc : c ∈ (ProcessPreFilters g T w path body headers).calls) :
    c.filter ∈ (g.PathPreFilters path).getD [] := by
  rw [ProcessPreFilters_calls] at hc
  have hseg := (filterLoop_calls_filters T ((g.PathPreFilters path).getD []) body headers w).1
  have hmem : c.filter ∈ (filterLoop T ((g.PathPreFilters path).getD []) body headers w).calls.map
      (fun c => c.filter) := List.mem_map_of_mem _ hc
  rw [hseg] at hmem
  exact List.mem_of_mem_take hmem

/-- The filters `handleRequest` invokes are, in order, an initial segment of the list
registered for the path. -/
theorem handleRequest_calls_segment {σ : Type} (lib : Library) (g : Globals)
    (T : Transport σ) (w : σ) (path : String) (r : Request) :
    ∃ n, (handleRequest lib g T w path r).2.1.map (fun c => c.filter)
      = ((g.PathPreFilters path).getD []).take n := by
  rcases handleRequest_calls lib g T w path r with hnil | ⟨body, hcalls⟩
  · exact ⟨0, by rw [hnil]; rfl⟩
  · rw [hcalls, ProcessPreFilters_calls]
    exact ⟨_, (filterLoop_calls_filters T _ body r.Header w).1⟩

/-- The calls `handleRequest` makes do not depend on the method of the request. -/
theorem handleRequest_calls_method {σ : Type} (lib : Library) (g : Globals)
    (T : Transport σ) (w : σ) (path : String) (r : Request) (method : String) :
    (handleRequest lib g T w path { r with Method := method }).2.1
      = (handleRequest lib g T w path r).2.1 := by
  unfold handleRequest
  simp only []
  cases r.Body with
  | error e => rfl
  | ok bodyBytes =>
    simp only []
    cases (if bodyBytes.length > 0 then lib.Unmarshal bodyBytes else Except.ok []) with
    | error e => rfl
    | ok jsonInput =>
      simp only []
      split
      · rfl
      · cases lib.NewRequest method r.URL <;> cases lib.NewRequest r.Method r.URL <;>
          simp only [] <;>
          cases NewProxy lib (ProcessPreFilters g T w path jsonInput r.Header).DestinationURL <;>
          rfl

end service

/-! ## The claims about the filter chain -/

namespace manager

/-- C1: when the filters before `filter` in the chain of `path` all answer 200 without error
(the run of the loop over them records only passed calls) and `filter`, invoked on what
they left, answers a status other than 200, then `ProcessPreFilters` invokes exactly those
filters and `filter`, each once and in chain order, nothing after it, and returns a
`ProxyError` whose `Status` is the decimal string of that status and whose `Message` ends in
the endpoint of `filter`. -/
theorem ProcessPreFilters_stops_at_first_rejection {σ : Type} (g : Globals)
    (T : Transport σ) (w : σ) (path : String) (body : JSONObject) (headers : HeaderMap)
    (pre post : List Filter) (filter : Filter) (reply : HTTPReply) (w' : σ)
    (hchain : g.PathPreFilters path = some (pre ++ filter :: post))
    (hpre : ∀ c ∈ (filterLoop T pre body headers w).calls, c.passed = true)
    (hk : T (filterLoop T pre body headers w).world filter.Endpoint
        { Body := (filterLoop T pre body headers w).inputBody
          Headers := (filterLoop T pre body headers w).inputHeaders
          Status := 0 } = (.ok reply, w'))
    (hs : reply.StatusCode ≠ 200) :
    (ProcessPreFilters g T w path body headers).calls.map (fun c => c.filter)
        = pre ++ [filter] ∧
      (ProcessPreFilters g T w path body headers).Err.Status = Itoa reply.StatusCode ∧
      (ProcessPreFilters g T w path body headers).Err.Message
        = "Error response while processing the filter " ++ filter.Endpoint := by
  have hnone := (filterLoop_err_none_iff T pre body headers w).2 hpre
  have hpremap := (filterLoop_calls_filters T pre body headers w).2 hnone
  have hrun := filterLoop_append T pre (filter :: post) body headers w hnone
  rw [filterLoop_cons_reject T filter post _ _ _ w' reply hk hs] at hrun
  have hget : (g.PathPreFilters path).getD [] = pre ++ filter :: post := by rw [hchain]; rfl
  have herr : (filterLoop T ((g.PathPreFilters path).getD []) body headers w).err
      = some { Status := Itoa reply.StatusCode
               Message := "Error response while processing the filter " ++ filter.Endpoint } := by
    rw [hget, hrun]
  refine ⟨?_, ?_, ?_⟩
  · rw [ProcessPreFilters_calls, hget, hrun]
    simp [hpremap]
  · rw [ProcessPreFilters_Err_of_some g T w path body headers _ herr]
  · rw [ProcessPreFilters_Err_of_some g T w path body headers _ herr]

/-- On `/both` the chain is A then B: A approves, B answers 403; both are invoked, once
each and in that order, and the error carries the status `403` and the endpoint of B. -/
theorem ProcessPreFilters_stops_at_first_rejection_witness :
    (ProcessPreFilters demoGlobals demoTransport 0 "/both" [("x", JSONValue.number 0)] []).calls.map
        (fun c => c.filter) = [demoFilterA] ++ [demoFilterB] ∧
      (ProcessPreFilters demoGlobals demoTransport 0 "/both" [("x", JSONValue.number 0)] []).Err.Status
        = Itoa 403 ∧
      (ProcessPreFilters demoGlobals demoTransport 0 "/both" [("x", JSONValue.number 0)] []).Err.Message
        = "Error response while processing the filter " ++ "http://b" :=
  ProcessPreFilters_stops_at_first_rejection demoGlobals demoTransport 0 "/both"
    [("x", JSONValue.number 0)] [] [demoFilterA] [] demoFilterB
    { StatusCode := 403, Decoded := zeroFilterData } 2
    (by decide) (by decide) rfl (by decide)

/-- C4: when the filters before `filter` in the chain of `path` all answer 200 without error
and the invocation of `filter` on what they left fails with the error `e`, then
`ProcessPreFilters` invokes exactly those filters and `filter`, nothing after it, and
returns a `ProxyError` whose `Status` is the string `500` and whose `Message` is built from
the error and the printed filter, so that it contains the endpoint of `filter`. -/
theorem ProcessPreFilters_stops_at_first_failure {σ : Type} (g : Globals)
    (T : Transport σ) (w : σ) (path : String) (body : JSONObject) (headers : HeaderMap)
    (pre post : List Filter) (filter : Filter) (e : String) (w' : σ)
    (hchain : g.PathPreFilters path = some (pre ++ filter :: post))
    (hpre : ∀ c ∈ (filterLoop T pre body headers w).calls, c.passed = true)
    (hk : T (filterLoop T pre body headers w).world filter.Endpoint
        { Body := (filterLoop T pre body headers w).inputBody
          Headers := (filterLoop T pre body headers w).inputHeaders
          Status := 0 } = (.error e, w')) :
    (ProcessPreFilters g T w path body headers).calls.map (fun c => c.filter)
        = pre ++ [filter] ∧
      (ProcessPreFilters g T w path body headers).Err.Status = "500" ∧
      (ProcessPreFilters g T w path body headers).Err.Message
        = "Error " ++ e ++ " processing the filter " ++ fmtFilter filter ∧
      ∃ before after,
        (ProcessPreFilters g T w path body headers).Err.Message
          = before ++ filter.Endpoint ++ after := by
  have hnone := (filterLoop_err_none_iff T pre body headers w).2 hpre
  have hpremap := (filterLoop_calls_filters T pre body headers w).2 hnone
  have hrun := filterLoop_append T pre (filter :: post) body headers w hnone
  rw [filterLoop_cons_error T filter post _ _ _ w' e hk] at hrun
  have hget : (g.PathPreFilters path).getD [] = pre ++ filter :: post := by rw [hchain]; rfl
  have herr : (filterLoop T ((g.PathPreFilters path).getD []) body headers w).err
      = some { Status := Itoa 500
               Message := "Error " ++ e ++ " processing the filter " ++ fmtFilter filter } := by
    rw [hget, hrun]
  have hE := ProcessPreFilters_Err_of_some g T w path body headers _ herr
  refine ⟨?_, ?_, ?_, ?_⟩
  · rw [ProcessPreFilters_calls, hget, hrun]
    simp [hpremap]
  · rw [hE]; show Itoa 500 = "500"; decide
  · rw [hE]
  · refine ⟨"Error " ++ e ++ " processing the filter " ++ "\x7b",
      " " ++ filter.SecretToken ++ " " ++ fmtStrings filter.Methods ++ " "
        ++ fmtStrings filter.Paths ++ "\x7d", ?_⟩
    rw [hE]
    simp only [fmtFilter, String.append_assoc]

/-- On `/down` the only filter cannot be reached: it is the one call made, and the error
carries the status `500` and the printed filter. -/
theorem ProcessPreFilters_stops_at_first_failure_witness :
    (ProcessPreFilters demoGlobals demoTransport 0 "/down" [] []).calls.map (fun c => c.filter)
        = [] ++ [demoFilterC] ∧
      (ProcessPreFilters demoGlobals demoTransport 0 "/down" [] []).Err.Status = "500" ∧
      (ProcessPreFilters demoGlobals demoTransport 0 "/down" [] []).Err.Message
        = "Error " ++ "connection refused" ++ " processing the filter " ++ fmtFilter demoFilterC ∧
      ∃ before after,
        (ProcessPreFilters demoGlobals demoTransport 0 "/down" [] []).Err.Message
          = before ++ demoFilterC.Endpoint ++ after :=
  ProcessPreFilters_stops_at_first_failure demoGlobals demoTransport 0 "/down" [] []
    [] [] demoFilterC "connection refused" 1 (by decide) (by decide) rfl

end manager

namespace manager

/-- C2: when every invocation made in the run answers status 200 with an empty body and
empty headers (in particular when no filter is registered for `path`, so that no
invocation is made), `ProcessPreFilters` returns the zero `ProxyError`, the body and the
headers it was given, after invoking every filter of the chain once and in order. -/
theorem ProcessPreFilters_unchanged_on_empty {σ : Type} (g : Globals) (T : Transport σ)
    (w : σ) (path : String) (body : JSONObject) (headers : HeaderMap)
    (hall : ∀ c ∈ (ProcessPreFilters g T w path body headers).calls, c.unchanged = true) :
    (ProcessPreFilters g T w path body headers).Err = { Status := "", Message := "" } ∧
      (ProcessPreFilters g T w path body headers).Body = body ∧
      (ProcessPreFilters g T w path body headers).Headers = headers ∧
      (ProcessPreFilters g T w path body headers).calls.map (fun c => c.filter)
        = (g.PathPreFilters path).getD [] := by
  rw [ProcessPreFilters_calls] at hall
  have hpass : ∀ c ∈ (filterLoop T ((g.PathPreFilters path).getD []) body headers w).calls,
      c.passed = true := fun c hc => ((Call.unchanged_iff c).1 (hall c hc)).1
  have hnone := (filterLoop_err_none_iff T _ body headers w).2 hpass
  obtain ⟨_, hB, hH⟩ := filterLoop_threading T _ body headers w hpass
  refine ⟨(ProcessPreFilters_of_none g T w path body headers hnone).1, ?_, ?_, ?_⟩
  · rw [ProcessPreFilters_Body, hB]
    apply latestNonEmpty_of_all_empty
    intro r hr
    obtain ⟨c, hc, rfl⟩ := List.mem_map.1 hr
    exact ((Call.unchanged_iff c).1 (hall c hc)).2.1
  · rw [ProcessPreFilters_Headers, hH]
    apply latestNonEmpty_of_all_empty
    intro r hr
    obtain ⟨c, hc, rfl⟩ := List.mem_map.1 hr
    exact ((Call.unchanged_iff c).1 (hall c hc)).2.2
  · rw [ProcessPreFilters_calls]
    exact (filterLoop_calls_filters T _ body headers w).2 hnone

/-- On `/both`, with services that approve a one-field body and change nothing, and would
reject a larger body, both filters run and the input comes back as it was. -/
theorem ProcessPreFilters_unchanged_on_empty_witness :
    (∀ c ∈ (ProcessPreFilters demoGlobals approveSmall 0 "/both" [("x", JSONValue.number 0)]
        [("Accept", ["text/plain"])]).calls, c.unchanged = true) ∧
      ((ProcessPreFilters demoGlobals approveSmall 0 "/both" [("x", JSONValue.number 0)]
        [("Accept", ["text/plain"])]).Err = { Status := "", Message := "" } ∧
      (ProcessPreFilters demoGlobals approveSmall 0 "/both" [("x", JSONValue.number 0)]
        [("Accept", ["text/plain"])]).Body = [("x", JSONValue.number 0)] ∧
      (ProcessPreFilters demoGlobals approveSmall 0 "/both" [("x", JSONValue.number 0)]
        [("Accept", ["text/plain"])]).Headers = [("Accept", ["text/plain"])] ∧
      (ProcessPreFilters demoGlobals approveSmall 0 "/both" [("x", JSONValue.number 0)]
        [("Accept", ["text/plain"])]).calls.map (fun c => c.filter)
        = (demoGlobals.PathPreFilters "/both").getD []) ∧
      (ProcessPreFilters demoGlobals approveSmall 0 "/both"
        [("x", JSONValue.number 0), ("y", JSONValue.number 0)] []).Err.Status = "413" :=
  ⟨by decide,
    ProcessPreFilters_unchanged_on_empty demoGlobals approveSmall 0 "/both"
      [("x", JSONValue.number 0)] [("Accept", ["text/plain"])] (by decide),
    by decide⟩

/-- C9: in a run where every invoked filter answers 200 without error, the whole chain is
invoked in order; call number `k` (from 0) is sent the latest non-empty body answered by the
calls before it, the initial body when there is none, and likewise and independently for
the headers; the body and headers returned follow the same rule over all the calls. -/
theorem ProcessPreFilters_threads_latest_nonempty {σ : Type} (g : Globals)
    (T : Transport σ) (w : σ) (path : String) (body : JSONObject) (headers : HeaderMap)
    (hall : ∀ c ∈ (ProcessPreFilters g T w path body headers).calls, c.passed = true) :
    (ProcessPreFilters g T w path body headers).calls.map (fun c => c.filter)
        = (g.PathPreFilters path).getD [] ∧
      (∀ (k : Nat) (hk : k < (ProcessPreFilters g T w path body headers).calls.length),
        ((ProcessPreFilters g T w path body headers).calls.get ⟨k, hk⟩).request.Body
          = latestNonEmpty body
              (((ProcessPreFilters g T w path body headers).calls.take k).map
                Call.responseBody) ∧
        ((ProcessPreFilters g T w path body headers).calls.get ⟨k, hk⟩).request.Headers
          = latestNonEmpty headers
              (((ProcessPreFilters g T w path body headers).calls.take k).map
                Call.responseHeaders)) ∧
      (ProcessPreFilters g T w path body headers).Body
        = latestNonEmpty body
            ((ProcessPreFilters g T w path body headers).calls.map Call.responseBody) ∧
      (ProcessPreFilters g T w path body headers).Headers
        = latestNonEmpty headers
            ((ProcessPreFilters g T w path body headers).calls.map Call.responseHeaders) := by
  rw [ProcessPreFilters_Body, ProcessPreFilters_Headers]
  have key : ∀ cs : List Call,
      cs = (filterLoop T ((g.PathPreFilters path).getD []) body headers w).calls →
      (∀ c ∈ cs, c.passed = true) →
      cs.map (fun c => c.filter) = (g.PathPreFilters path).getD [] ∧
        (∀ (k : Nat) (hk : k < cs.length),
          (cs.get ⟨k, hk⟩).request.Body
            = latestNonEmpty body ((cs.take k).map Call.responseBody) ∧
          (cs.get ⟨k, hk⟩).request.Headers
            = latestNonEmpty headers ((cs.take k).map Call.responseHeaders)) ∧
        (filterLoop T ((g.PathPreFilters path).getD []) body headers w).inputBody
          = latestNonEmpty body (cs.map Call.responseBody) ∧
        (filterLoop T ((g.PathPreFilters path).getD []) body headers w).inputHeaders
          = latestNonEmpty headers (cs.map Call.responseHeaders) := by
    intro cs hcs hpass
    subst hcs
    have hnone := (filterLoop_err_none_iff T _ body headers w).2 hpass
    obtain ⟨hreq, hB, hH⟩ := filterLoop_threading T _ body headers w hpass
    exact ⟨(filterLoop_calls_filters T _ body headers w).2 hnone, hreq, hB, hH⟩
  exact key _ (ProcessPreFilters_calls g T w path body headers) hall

/-- The scenario of the claim: `/widgets` has one filter, which answers status 200, no
headers and the body binding `x` to 1 when sent the body binding `x` to 0; the outcome has
that new body and the initial headers. -/
theorem ProcessPreFilters_threads_latest_nonempty_witness :
    (∀ c ∈ (ProcessPreFilters demoGlobals demoTransport 0 "/widgets"
        [("x", JSONValue.number 0)] [("Accept", ["text/plain"])]).calls, c.passed = true) ∧
      (ProcessPreFilters demoGlobals demoTransport 0 "/widgets"
        [("x", JSONValue.number 0)] [("Accept", ["text/plain"])]).Body
          = [("x", JSONValue.number 1)] ∧
      (ProcessPreFilters demoGlobals demoTransport 0 "/widgets"
        [("x", JSONValue.number 0)] [("Accept", ["text/plain"])]).Headers
          = [("Accept", ["text/plain"])] ∧
      (ProcessPreFilters demoGlobals demoTransport 0 "/widgets"
        [("x", JSONValue.number 0)] [("Accept", ["text/plain"])]).calls.map (fun c => c.filter)
          = [demoFilterA] :=
  have h := ProcessPreFilters_threads_latest_nonempty demoGlobals demoTransport 0 "/widgets"
    [("x", JSONValue.number 0)] [("Accept", ["text/plain"])] (by decide)
  ⟨by decide, h.2.2.1.trans (by decide), h.2.2.2.trans (by decide), h.1.trans (by decide)⟩

end manager

/-! ## The claims about the tables built by `SetEnv` -/

namespace manager

/-- C3: over the tables built by a successful `SetEnv`, when every invoked filter passes,
the destination URL returned by `ProcessPreFilters` for `path` is the `DestinationURL` of the
last entry of the configured destinations whose paths contain `path`, and the global
`DefaultDestination` when no entry lists `path`. -/
theorem ProcessPreFilters_destination {σ : Type} (c : Context)
    (ReadFile : String → Except String String)
    (Unmarshal : String → Except String ConfigFileFields) (g : Globals)
    (hg : SetEnv c ReadFile Unmarshal = .ok g)
    (T : Transport σ) (w : σ) (path : String) (body : JSONObject) (headers : HeaderMap)
    (hpass : ∀ call ∈ (ProcessPreFilters g T w path body headers).calls, call.passed = true) :
    (ProcessPreFilters g T w path body headers).DestinationURL
      = (match (g.ConfigFields.Destinations.filter
            (fun d => decide (path ∈ d.Paths))).getLast? with
         | some d => d.DestinationURL
         | none => g.DefaultDestination) := by
  rw [ProcessPreFilters_calls] at hpass
  have hnone := (filterLoop_err_none_iff T _ body headers w).2 hpass
  rw [(ProcessPreFilters_of_none g T w path body headers hnone).2,
    (SetEnv_ok c ReadFile Unmarshal g hg).2.1, buildPathDestinations_apply]

/-- Two entries claim `/widgets`: the one declared last wins.  No entry lists `/both`: the
default destination, here the cattle URL, is used. -/
theorem ProcessPreFilters_destination_witness :
    (ProcessPreFilters demoGlobals demoTransport 0 "/widgets" [] []).DestinationURL
        = "http://backend2" ∧
      (ProcessPreFilters demoGlobals approveAll 0 "/both" [] []).DestinationURL
        = "http://cattle" :=
  ⟨(ProcessPreFilters_destination demoContext demoReadFile demoUnmarshal demoGlobals rfl
      demoTransport 0 "/widgets" [] [] (by decide)).trans (by decide),
    (ProcessPreFilters_destination demoContext demoReadFile demoUnmarshal demoGlobals rfl
      approveAll 0 "/both" [] [] (by decide)).trans (by decide)⟩

/-- C5: after a successful `SetEnv` on a configuration in which no filter lists the same
path twice, the entry of `PathPreFilters` for `p` is the list of the configured filters whose
paths contain `p`, in declaration order, and `p` is absent from the table exactly when no
filter lists it. -/
theorem SetEnv_PathPreFilters (c : Context) (ReadFile : String → Except String String)
    (Unmarshal : String → Except String ConfigFileFields) (g : Globals)
    (hg : SetEnv c ReadFile Unmarshal = .ok g)
    (hnodup : ∀ f ∈ g.ConfigFields.Prefilters, f.Paths.Nodup) (p : String) :
    g.PathPreFilters p
        = (if g.ConfigFields.Prefilters.filter (fun f => decide (p ∈ f.Paths)) = [] then none
           else some (g.ConfigFields.Prefilters.filter (fun f => decide (p ∈ f.Paths)))) ∧
      (g.PathPreFilters p = none ↔ ∀ f ∈ g.ConfigFields.Prefilters, p ∉ f.Paths) := by
  have htable : g.PathPreFilters p
      = (if g.ConfigFields.Prefilters.filter (fun f => decide (p ∈ f.Paths)) = [] then none
         else some (g.ConfigFields.Prefilters.filter (fun f => decide (p ∈ f.Paths)))) := by
    rw [(SetEnv_ok c ReadFile Unmarshal g hg).1, buildPathPreFilters_apply,
      flatMap_replicate_eq_filter _ p hnodup]
  refine ⟨htable, ?_⟩
  rw [htable]
  by_cases hempty : g.ConfigFields.Prefilters.filter (fun f => decide (p ∈ f.Paths)) = []
  · simp only [hempty, if_true, true_iff]
    intro f hf hp
    have : f ∈ g.ConfigFields.Prefilters.filter (fun f => decide (p ∈ f.Paths)) :=
      List.mem_filter.2 ⟨hf, by simpa using hp⟩
    rw [hempty] at this
    cases this
  · rw [if_neg hempty]
    refine ⟨fun h => (by cases h), fun hall => absurd ?_ hempty⟩
    rw [List.filter_eq_nil_iff]
    intro f hf
    simpa using hall f hf

/-- In the demo configuration `/both` is listed by the first two filters, in that order,
and `/plain` by none. -/
theorem SetEnv_PathPreFilters_witness :
    (∀ f ∈ demoGlobals.ConfigFields.Prefilters, f.Paths.Nodup) ∧
      demoGlobals.PathPreFilters "/both" = some [demoFilterA, demoFilterB] ∧
      demoGlobals.PathPreFilters "/plain" = none :=
  ⟨by decide,
    (SetEnv_PathPreFilters demoContext demoReadFile demoUnmarshal demoGlobals rfl
      (by decide) "/both").1.trans (by decide),
    (SetEnv_PathPreFilters demoContext demoReadFile demoUnmarshal demoGlobals rfl
      (by decide) "/plain").1.trans (by decide)⟩

end manager

/-! ## The claims about the router and the request handler -/

namespace service

open manager

/-- C6, as stated, fails: in the demo configuration filter B is registered under `/both`
for POST only, filter A under `/both` for GET.  A GET request to `/both` is routed to
`handleRequest` on the template `/both` and filter B is invoked, although GET equals none
of the methods of B, whatever the case of the letters. -/
theorem invoked_filter_methods_not_checked :
    SetEnv demoContext demoReadFile demoUnmarshal = .ok demoGlobals ∧
      matchRoute demoLibrary (NewRouter demoLibrary demoConfig) demoGetBoth
        = some { method := "GET", template := "/both" } ∧
      demoFilterB ∈ (ServeHTTP demoLibrary demoGlobals demoTransport 0
        (NewRouter demoLibrary demoConfig) demoGetBoth).2.1.map (fun c => c.filter) ∧
      "/both" ∈ demoFilterB.Paths ∧
      ∀ m ∈ demoFilterB.Methods, equalFold demoLibrary.ToUpper demoGetBoth.Method m = false :=
  ⟨rfl, by decide, by decide, by decide, by decide⟩

/-- C6, amended: when a request is routed to `handleRequest` on the template of a route
registered by `NewRouter`, its method is the `strings.ToUpper` form of one of the methods of
some configured filter listing that template, not necessarily of a filter that is invoked;
every filter the chain invokes is a configured filter listing that template; the filters
invoked are, in order, an initial segment of the list registered for that template; and
`handleRequest` on that template makes the same calls whatever the method of the request. -/
theorem invoked_filters_share_template_of_route {σ : Type} (c : Context)
    (ReadFile : String → Except String String)
    (Unmarshal : String → Except String ConfigFileFields) (g : Globals)
    (hg : SetEnv c ReadFile Unmarshal = .ok g)
    (lib : Library) (T : Transport σ) (w : σ) (r : Request) (rt : Route)
    (hroute : matchRoute lib (NewRouter lib g.ConfigFields) r = some rt) :
    ServeHTTP lib g T w (NewRouter lib g.ConfigFields) r
        = handleRequest lib g T w rt.template r ∧
      (∃ f ∈ g.ConfigFields.Prefilters, rt.template ∈ f.Paths ∧
        ∃ m ∈ f.Methods, r.Method = lib.ToUpper m) ∧
      (∀ call ∈ (handleRequest lib g T w rt.template r).2.1,
        call.filter ∈ g.ConfigFields.Prefilters ∧ rt.template ∈ call.filter.Paths) ∧
      (∃ n, (handleRequest lib g T w rt.template r).2.1.map (fun call => call.filter)
        = ((g.PathPreFilters rt.template).getD []).take n) ∧
      ∀ method : String,
        (handleRequest lib g T w rt.template { r with Method := method }).2.1
          = (handleRequest lib g T w rt.template r).2.1 := by
  obtain ⟨hmem, hmethod, _⟩ := matchRoute_some lib _ r rt hroute
  obtain ⟨f, hf, p, hp, m, hm, hrt⟩ := (mem_NewRouter lib g.ConfigFields rt).1 hmem
  refine ⟨?_, ⟨f, hf, ?_, m, hm, ?_⟩, ?_, handleRequest_calls_segment lib g T w rt.template r,
    handleRequest_calls_method lib g T w rt.template r⟩
  · unfold ServeHTTP
    rw [hroute]
  · rw [hrt]; exact hp
  · rw [← hmethod, hrt]
  · intro call hcall
    rcases handleRequest_calls lib g T w rt.template r with hnil | ⟨body, hcalls⟩
    · rw [hnil] at hcall; cases hcall
    · rw [hcalls] at hcall
      have hin := ProcessPreFilters_calls_mem g T w rt.template body r.Header call hcall
      rw [(SetEnv_ok c ReadFile Unmarshal g hg).1] at hin
      exact (mem_buildPathPreFilters _ _ _).1 hin

/-- The GET request to `/both` is served by `handleRequest` on `/both`; GET is a method of
filter A, which lists `/both`; the two filters invoked, A and B, both list `/both` and are
the list registered for `/both`; a POST makes the same calls. -/
theorem invoked_filters_share_template_of_route_witness :
    (ServeHTTP demoLibrary demoGlobals demoTransport 0
        (NewRouter demoLibrary demoGlobals.ConfigFields) demoGetBoth
        = handleRequest demoLibrary demoGlobals demoTransport 0 "/both" demoGetBoth ∧
      (∃ f ∈ demoGlobals.ConfigFields.Prefilters, "/both" ∈ f.Paths ∧
        ∃ m ∈ f.Methods, demoGetBoth.Method = demoLibrary.ToUpper m) ∧
      (∀ call ∈ (handleRequest demoLibrary demoGlobals demoTransport 0 "/both" demoGetBoth).2.1,
        call.filter ∈ demoGlobals.ConfigFields.Prefilters ∧ "/both" ∈ call.filter.Paths) ∧
      (∃ n, (handleRequest demoLibrary demoGlobals demoTransport 0 "/both"
          demoGetBoth).2.1.map (fun call => call.filter)
        = ((demoGlobals.PathPreFilters "/both").getD []).take n) ∧
      ∀ method : String,
        (handleRequest demoLibrary demoGlobals demoTransport 0 "/both"
            { demoGetBoth with Method := method }).2.1
          = (handleRequest demoLibrary demoGlobals demoTransport 0 "/both" demoGetBoth).2.1) ∧
      (handleRequest demoLibrary demoGlobals demoTransport 0 "/both"
          demoGetBoth).2.1.map (fun call => call.filter) = [demoFilterA, demoFilterB] :=
  ⟨invoked_filters_share_template_of_route demoContext demoReadFile demoUnmarshal demoGlobals
      rfl demoLibrary demoTransport 0 demoGetBoth { method := "GET", template := "/both" }
      (by decide),
    by decide⟩

/-- C7, as stated, fails: in the demo configuration the second destination entry lists
`/plain`, no filter does, and `NewRouter` registers no route with that template; a request
to `/plain` matches no route and the not-found handler forwards it to the default
destination, not to the destination URL of the entry. -/
theorem destination_only_path_not_routed :
    SetEnv demoContext demoReadFile demoUnmarshal = .ok demoGlobals ∧
      (∃ d ∈ demoConfig.Destinations, "/plain" ∈ d.Paths ∧
        d.DestinationURL = "http://backend2") ∧
      (∀ rt ∈ NewRouter demoLibrary demoConfig, rt.template ≠ "/plain") ∧
      matchRoute demoLibrary (NewRouter demoLibrary demoConfig) demoGetPlain = none ∧
      ServeHTTP demoLibrary demoGlobals demoTransport 0 (NewRouter demoLibrary demoConfig)
          demoGetPlain
        = (Response.forwardedVerbatim "http://cattle" demoGetPlain, [], 0) :=
  ⟨rfl, by decide, by decide, by decide, rfl⟩

/-- C7, amended: the routes `NewRouter` registers are exactly one per configured filter,
path of that filter and method of that filter (upper-cased), so they do not depend on the
destination entries; a request whose path matches none of them is served by the not-found
handler, which forwards it unchanged to the default destination when that URL parses. -/
theorem NewRouter_routes_from_filters_only (routerLib : Library) (cfg : ConfigFileFields) :
    (∀ rt : Route, rt ∈ NewRouter routerLib cfg ↔
        ∃ f ∈ cfg.Prefilters, ∃ p ∈ f.Paths, ∃ m ∈ f.Methods,
          rt = { method := routerLib.ToUpper m, template := p }) ∧
      (∀ ds : List Destination,
        NewRouter routerLib { cfg with Destinations := ds } = NewRouter routerLib cfg) ∧
      ∀ {σ : Type} (lib : Library) (g : Globals) (T : Transport σ) (w : σ) (r : Request),
        (∀ rt ∈ NewRouter routerLib cfg, lib.pathMatches rt.template r.Path = false) →
          ServeHTTP lib g T w (NewRouter routerLib cfg) r = (handleNotFoundRequest lib g r, [], w) ∧
            (lib.Parse g.DefaultDestination = .ok () →
              handleNotFoundRequest lib g r = .forwardedVerbatim g.DefaultDestination r) := by
  refine ⟨mem_NewRouter routerLib cfg, fun _ => rfl, ?_⟩
  intro σ lib g T w r hnomatch
  have hnone : matchRoute lib (NewRouter routerLib cfg) r = none := by
    unfold matchRoute
    rw [List.find?_eq_none]
    intro rt hrt
    simp [hnomatch rt hrt]
  refine ⟨?_, ?_⟩
  · unfold ServeHTTP
    rw [hnone]
  · intro hparse
    unfold handleNotFoundRequest NewProxy
    rw [hparse]

/-- The request to `/plain` matches no route of the demo configuration and is forwarded
unchanged to the default destination. -/
theorem NewRouter_routes_from_filters_only_witness :
    (∀ rt ∈ NewRouter demoLibrary demoConfig,
        demoLibrary.pathMatches rt.template demoGetPlain.Path = false) ∧
      ServeHTTP demoLibrary demoGlobals demoTransport 0 (NewRouter demoLibrary demoConfig)
          demoGetPlain
        = (handleNotFoundRequest demoLibrary demoGlobals demoGetPlain, [], 0) ∧
      handleNotFoundRequest demoLibrary demoGlobals demoGetPlain
        = .forwardedVerbatim demoGlobals.DefaultDestination demoGetPlain :=
  ⟨by decide,
    ((NewRouter_routes_from_filters_only demoLibrary demoConfig).2.2 demoLibrary demoGlobals
      demoTransport 0 demoGetPlain (by decide)).1,
    ((NewRouter_routes_from_filters_only demoLibrary demoConfig).2.2 demoLibrary demoGlobals
      demoTransport 0 demoGetPlain (by decide)).2 rfl⟩

end service

namespace service

open manager

/-- C8: `ProcessPreFilters` returns a `ProxyError` with a non-empty `Status` exactly when
one of the invocations it made failed or answered a status other than 200; and when that
happens on the decoded body and the headers of a request, `handleRequest` writes that
error and forwards nothing: its response is the written error, not a forwarded request, so
the body and headers accumulated from the filters that passed go nowhere. -/
theorem handleRequest_writes_error_iff_filter_fails {σ : Type} (lib : Library) (g : Globals)
    (T : Transport σ) (w : σ) (path : String) :
    (∀ (body : JSONObject) (headers : HeaderMap),
        (ProcessPreFilters g T w path body headers).Err.Status ≠ "" ↔
          ∃ call ∈ (ProcessPreFilters g T w path body headers).calls,
            (∃ e, call.response = .error e) ∨
              (∃ d, call.response = .ok d ∧ d.Status ≠ 200)) ∧
      ∀ (r : Request) (bodyBytes : String) (jsonInput : JSONObject),
        r.Body = .ok bodyBytes →
        (if bodyBytes.length > 0 then lib.Unmarshal bodyBytes else .ok []) = .ok jsonInput →
        (∃ call ∈ (ProcessPreFilters g T w path jsonInput r.Header).calls,
            (∃ e, call.response = .error e) ∨
              (∃ d, call.response = .ok d ∧ d.Status ≠ 200)) →
        handleRequest lib g T w path r
          = (.wroteError (ProcessPreFilters g T w path jsonInput r.Header).Err,
              (ProcessPreFilters g T w path jsonInput r.Header).calls,
              (ProcessPreFilters g T w path jsonInput r.Header).world) := by
  have hiff : ∀ (body : JSONObject) (headers : HeaderMap),
      (ProcessPreFilters g T w path body headers).Err.Status ≠ "" ↔
        ∃ call ∈ (ProcessPreFilters g T w path body headers).calls,
          (∃ e, call.response = .error e) ∨
            (∃ d, call.response = .ok d ∧ d.Status ≠ 200) := by
    intro body headers
    rw [Ne, ProcessPreFilters_status_empty_iff, filterLoop_err_none_iff,
      ProcessPreFilters_calls]
    constructor
    · intro h
      by_contra hno
      apply h
      intro call hcall
      cases hp : call.passed with
      | true => rfl
      | false => exact absurd ⟨call, hcall, (Call.passed_eq_false_iff call).1 hp⟩ hno
    · rintro ⟨call, hcall, hfail⟩ hall
      have h1 := hall call hcall
      rw [(Call.passed_eq_false_iff call).2 hfail] at h1
      cases h1
  refine ⟨hiff, ?_⟩
  intro r bodyBytes jsonInput hbody hdec hfail
  have hstatus := (hiff jsonInput r.Header).2 hfail
  unfold handleRequest
  simp only [hbody, hdec]
  rw [if_pos hstatus]
  rfl

/-- The GET request to `/both`: filter A passes and rewrites the body, filter B answers 403;
the handler writes the 403 error and forwards nothing. -/
theorem handleRequest_writes_error_iff_filter_fails_witness :
    (ProcessPreFilters demoGlobals demoTransport 0 "/both" [("x", JSONValue.number 0)]
        demoGetBoth.Header).Err.Status ≠ "" ∧
      handleRequest demoLibrary demoGlobals demoTransport 0 "/both" demoGetBoth
        = (.wroteError (ProcessPreFilters demoGlobals demoTransport 0 "/both"
              [("x", JSONValue.number 0)] demoGetBoth.Header).Err,
            (ProcessPreFilters demoGlobals demoTransport 0 "/both"
              [("x", JSONValue.number 0)] demoGetBoth.Header).calls,
            (ProcessPreFilters demoGlobals demoTransport 0 "/both"
              [("x", JSONValue.number 0)] demoGetBoth.Header).world) ∧
      (ProcessPreFilters demoGlobals demoTransport 0 "/both" [("x", JSONValue.number 0)]
        demoGetBoth.Header).Err
        = { Status := "403"
            Message := "Error response while processing the filter http://b" } :=
  ⟨by decide,
    (handleRequest_writes_error_iff_filter_fails demoLibrary demoGlobals demoTransport 0
      "/both").2 demoGetBoth "(some JSON text)" [("x", JSONValue.number 0)] rfl rfl
      (((handleRequest_writes_error_iff_filter_fails demoLibrary demoGlobals demoTransport 0
        "/both").1 [("x", JSONValue.number 0)] demoGetBoth.Header).1 (by decide)),
    by decide⟩

/-- C10, evaluated where it fails: two configurations that differ only in the secret token
of the filter on `/down`, the same unreachable endpoint in both runs.  The `Message` of the
returned `ProxyError` prints the whole filter, secret token included, so the two runs
return different messages, and `handleRequest` writes that message to the client. -/
theorem error_message_prints_secretToken :
    SetEnv demoContext demoReadFile demoUnmarshal = .ok demoGlobals ∧
      SetEnv demoContext demoReadFile demoUnmarshalRotated = .ok demoGlobalsRotated ∧
      demoConfigRotated.Prefilters.map (fun f => { f with SecretToken := "" })
        = demoConfig.Prefilters.map (fun f => { f with SecretToken := "" }) ∧
      demoConfigRotated.Destinations = demoConfig.Destinations ∧
      (ProcessPreFilters demoGlobals demoTransport 0 "/down" [] []).Err
        = { Status := "500"
            Message :=
              "Error connection refused processing the filter \x7bhttp://down s3 [GET] [/down]\x7d" } ∧
      (ProcessPreFilters demoGlobalsRotated demoTransport 0 "/down" [] []).Err
        = { Status := "500"
            Message :=
              "Error connection refused processing the filter \x7bhttp://down rotated [GET] [/down]\x7d" } ∧
      (ProcessPreFilters demoGlobals demoTransport 0 "/down" [] []).Err.Message
        ≠ (ProcessPreFilters demoGlobalsRotated demoTransport 0 "/down" [] []).Err.Message ∧
      (handleRequest demoLibrary demoGlobals demoTransport 0 "/down" demoGetDown).1
        = .wroteError
            { Status := "500"
              Message :=
                "Error connection refused processing the filter \x7bhttp://down s3 [GET] [/down]\x7d" } :=
  ⟨rfl, rfl, by decide, by decide, by decide, by decide, by decide, rfl⟩

end service
